import Mathlib

/-!
Verification of the sentiment-analysis integration and caching layer of the
amazon-fc-intelligence repository, together with its two Express API handlers.

The router, cache store, cost monitor and local fallback analyzer are described
in the repository only by its design documents (the AWS Sentiment Integration
Design Document and the requirements document); the Python implementation they
describe is not part of the source tree.  Definitions for those components are
therefore modelled from the specification text, as indicated by their doc
comments.  The fallback chain, the dashboard post-categorization code and the
two Express handlers are embedded directly from the source files.

Money amounts are modelled in integral micro-dollar units (naturals), and
confidences as rationals, so that all operations are exact and executable.
-/

/-- Canonical sentiment labels (spec section 3, AnalysisResult.sentiment). -/
inductive Sentiment where
  | POSITIVE
  | NEGATIVE
  | NEUTRAL
  | MIXED
deriving DecidableEq, Repr, Fintype

/-- Canonical output shape all backends are normalized into (spec section 3).
Cost fields are in micro-dollar units; confidence is a rational in [0,1]. -/
structure AnalysisResult where
  sentiment : Sentiment
  confidence : ℚ
  sourceBackend : String
  costEstimate : ℕ
  processingTimeMs : ℕ
  timestamp : ℕ
deriving DecidableEq, Repr

/-- Splits a character list into maximal whitespace-free words.
The accumulator holds the current word reversed. -/
def splitWsAux : List Char → List Char → List (List Char)
  | [], acc => if acc.isEmpty then [] else [acc.reverse]
  | c :: cs, acc =>
    if c.isWhitespace then
      if acc.isEmpty then splitWsAux cs [] else acc.reverse :: splitWsAux cs []
    else splitWsAux cs (c :: acc)

/-- Modelled from the spec: section 4.1 text normalization for cache keys
(trim, collapse internal whitespace, lower-case).  The normalizer
implementation itself is not under the source tree. -/
def normalizeText (text : String) : String :=
  String.mk (List.intercalate [' ']
    ((splitWsAux text.data []).map (fun w => w.map Char.toLower)))

/-- Lower-cased words of a text, used by the lexicon scorer. -/
def wordsOf (text : String) : List String :=
  (splitWsAux text.data []).map (fun w => String.mk (w.map Char.toLower))

/-- Modelled from the spec: positive keyword lexicon of the rule-based
fallback analyzer (keyword/lexicon scoring, section 4.4 rule 6). -/
def positiveLexicon : List String :=
  ["good", "great", "raise", "happy", "thanks", "decent", "helpful"]

/-- Modelled from the spec: negative keyword lexicon of the rule-based
fallback analyzer (keyword/lexicon scoring, section 4.4 rule 6). -/
def negativeLexicon : List String :=
  ["bad", "insulting", "angry", "greedy", "terrible", "worse", "unfair"]

/-- Modelled from the spec: the LOCAL_FALLBACK analyzer (section 4.4 rule 6),
a deterministic offline keyword/lexicon scorer that always succeeds and
returns costEstimate = 0 and sourceBackend = "local-fallback".  Its
implementation is not under the source tree; only the design document
references rule_based_analyzer. -/
def ruleBasedAnalyze (text : String) : AnalysisResult :=
  let ws := wordsOf text
  let pos := (ws.filter (fun w => positiveLexicon.contains w)).length
  let neg := (ws.filter (fun w => negativeLexicon.contains w)).length
  { sentiment :=
      if neg < pos then Sentiment.POSITIVE
      else if pos < neg then Sentiment.NEGATIVE
      else Sentiment.NEUTRAL
    confidence :=
      if pos + neg = 0 then 1/2 else ((max pos neg : ℕ) : ℚ) / ((pos + neg : ℕ) : ℚ)
    sourceBackend := "local-fallback"
    costEstimate := 0
    processingTimeMs := 0
    timestamp := 0 }

/-- AWS service failures of the paid backends (design document, error
handling section). -/
inductive AWSServiceError where
  | serviceUnavailable
  | rateLimited
  | timeoutErr
deriving DecidableEq, Repr

/-- The fallback chain, embedded from the design document function
analyze_with_fallback: try Comprehend, on AWSServiceError try Bedrock, on
AWSServiceError fall back to the rule-based analyzer.  The two paid
analyzers are passed as fallible functions. -/
def analyze_with_fallback
    (comprehendAnalyzer bedrockAnalyzer : String → Except AWSServiceError AnalysisResult)
    (text : String) : AnalysisResult :=
  match comprehendAnalyzer text with
  | Except.ok r => r
  | Except.error _ =>
    match bedrockAnalyzer text with
    | Except.ok r => r
    | Except.error _ => ruleBasedAnalyze text

/-- JavaScript toLowerCase on ASCII text, as used by the dashboard. -/
def jsToLower (s : String) : String :=
  String.mk (s.data.map Char.toLower)

/-- Emotion sub-object of the aws_sentiment of a post in the dashboard data
(part_008); the emotion label may be absent. -/
structure AwsEmotion where
  emotion : Option String
  emoConfidence : ℚ
deriving DecidableEq, Repr

/-- The aws_sentiment object attached to a dashboard post (part_008); the
sentiment label may be absent. -/
structure AwsSentimentData where
  sentiment : Option String
  confidence : ℚ
  emotions : Option AwsEmotion
deriving DecidableEq, Repr

/-- A Reddit post record as consumed by processAnalysisData (part_008);
the aws_sentiment object may be absent. -/
structure RPost where
  title : String
  score : Int
  aws_sentiment : Option AwsSentimentData
deriving DecidableEq, Repr

/-- Embeds the expression
post.aws_sentiment?.sentiment?.toLowerCase() || defaulted to the neutral
label, from processAnalysisData (part_008 lines 774, 780): a missing label,
and also an empty-string label, which is falsy in JavaScript, yield
"neutral". -/
def sentimentKey (p : RPost) : String :=
  match p.aws_sentiment.bind AwsSentimentData.sentiment with
  | none => "neutral"
  | some s => let t := jsToLower s; if t = "" then "neutral" else t

/-- The postsBySentiment accumulator object of processAnalysisData. -/
structure SentimentBuckets where
  positive : List RPost
  negative : List RPost
  neutral : List RPost
  mixed : List RPost
deriving DecidableEq, Repr

/-- The initial empty postsBySentiment object (part_008 lines 752-757). -/
def emptyBuckets : SentimentBuckets := ⟨[], [], [], []⟩

/-- One iteration of the forEach loop of processAnalysisData (part_008 lines
772-777): push the post onto the bucket named by its sentiment key if such a
bucket exists, otherwise leave every bucket unchanged (the JavaScript guard
checks membership of the key in postsBySentiment before pushing). -/
def bucketAdd (b : SentimentBuckets) (p : RPost) : SentimentBuckets :=
  let s := sentimentKey p
  if s = "positive" then { b with positive := b.positive ++ [p] }
  else if s = "negative" then { b with negative := b.negative ++ [p] }
  else if s = "neutral" then { b with neutral := b.neutral ++ [p] }
  else if s = "mixed" then { b with mixed := b.mixed ++ [p] }
  else b

/-- The sentiment-categorization pass of processAnalysisData (part_008
lines 770-785, restricted to the sentiment buckets). -/
def postsBySentiment (posts : List RPost) : SentimentBuckets :=
  posts.foldl bucketAdd emptyBuckets

/-- Whether a post was placed in any of the four sentiment buckets. -/
def inAnyBucket (p : RPost) (b : SentimentBuckets) : Bool :=
  b.positive.contains p || b.negative.contains p ||
    b.neutral.contains p || b.mixed.contains p

/-- The label-closure reading of claim C2 for the embedded code: every
processed post would be categorized under one of the four canonical labels
(the code has no error path, so the claimed UnmappableSentimentError could
only manifest as every post being bucketed). -/
def processAnalysisLabelClosure : Prop :=
  ∀ posts : List RPost, ∀ p ∈ posts, inAnyBucket p (postsBySentiment posts) = true

/-- A post carrying an out-of-vocabulary backend sentiment label. -/
def furiousPost : RPost :=
  { title := "x", score := 0,
    aws_sentiment := some { sentiment := some "FURIOUS", confidence := 0, emotions := none } }

/-- A post whose aws_sentiment object carries no sentiment label. -/
def unlabeledPost : RPost :=
  { title := "t", score := 0,
    aws_sentiment := some { sentiment := none, confidence := 0, emotions := none } }

/-- Compact shape of the parsed analysis JSON served by the port-3002 API
(part_009): the fields the dashboard summary relies on. -/
structure AnalysisData where
  total_posts : ℕ
  positiveCount : ℕ
  negativeCount : ℕ
  neutralCount : ℕ
  mixedCount : ℕ
deriving DecidableEq, Repr

/-- The hardcoded demo dataset of the port-3002 GET /api/analysis handler
(part_009 lines 29-581): 47 posts with aws_sentiment_summary
positive 18, negative 12, neutral 15, mixed 2. -/
def demoAnalysisData : AnalysisData :=
  { total_posts := 47, positiveCount := 18, negativeCount := 12,
    neutralCount := 15, mixedCount := 2 }

/-- The state of analysis_results.json as the handler observes it: absent,
or present and parsing to data d, or present but throwing on read/parse. -/
inductive AnalysisFileState where
  | absent
  | readable (d : AnalysisData)
  | unreadable
deriving DecidableEq, Repr

/-- An HTTP JSON response of the port-3002 API: status code, the success
flag and the data payload. -/
structure JsonResponse where
  status : ℕ
  success : Bool
  payload : AnalysisData
deriving DecidableEq, Repr

/-- Response plus whether the catch block logged a read error. -/
structure HandlerOutcome where
  response : JsonResponse
  loggedReadError : Bool
deriving DecidableEq, Repr

/-- The GET /api/analysis handler of the port-3002 server (part_009 lines
14-582): if the file exists it tries to read and parse it and respond with
the parsed data; a read or parse exception is caught and logged and control
falls through to the demo response; if the file is absent the demo data is
served.  Every path calls res.json, which defaults to status 200. -/
def getAnalysisHandler (fs : AnalysisFileState) : HandlerOutcome :=
  match fs with
  | AnalysisFileState.readable d => ⟨⟨200, true, d⟩, false⟩
  | AnalysisFileState.unreadable => ⟨⟨200, true, demoAnalysisData⟩, true⟩
  | AnalysisFileState.absent => ⟨⟨200, true, demoAnalysisData⟩, false⟩

/-- Outcome of one of the two Python subprocesses spawned by the refresh
endpoint. -/
inductive SubprocResult where
  | ok
  | fail
deriving DecidableEq, Repr

/-- Observable events of the POST /api/refresh handler of the
compensation-dashboard API (index.js lines 49-86), in execution order:
the HTTP response, subprocess launches and console log lines. -/
inductive REvent where
  | respond (success : Bool) (status : String)
  | runCollect
  | logCollectError
  | logCollectDone
  | runAnalyze
  | logAnalyzeError
  | logAnalyzeDone
deriving DecidableEq, Repr

/-- Whether an event is an HTTP response to the client. -/
def isRespond : REvent → Bool
  | REvent.respond _ _ => true
  | _ => false

/-- The POST /api/refresh handler (compensation-dashboard/api/index.js lines
49-86): res.json with success true and status processing is sent first,
then the collection subprocess is launched; a collection error is logged and
the chain stops; otherwise a log line is written and the analysis subprocess
runs, whose error is likewise only logged. -/
def refreshEvents (collectResult analyzeResult : SubprocResult) : List REvent :=
  [REvent.respond true "processing", REvent.runCollect] ++
    (match collectResult with
     | SubprocResult.fail => [REvent.logCollectError]
     | SubprocResult.ok =>
       [REvent.logCollectDone, REvent.runAnalyze] ++
         (match analyzeResult with
          | SubprocResult.fail => [REvent.logAnalyzeError]
          | SubprocResult.ok => [REvent.logAnalyzeDone]))

/-- Modelled from the spec: section 3 BudgetState, the process-wide budget
record of the Cost Monitor; the implementation is not under the source
tree.  currentDay tracks the local date of the last access for rollover. -/
structure BudgetState where
  dailyLimit : ℕ
  spentToday : ℕ
  requestCount : ℕ
  cacheHitCount : ℕ
  currentDay : ℕ
deriving DecidableEq, Repr

/-- Modelled from the spec: section 4.3 day-rollover, applied on every
access: on the first access after the local date changes, spentToday,
requestCount and cacheHitCount reset to zero and dailyLimit is untouched. -/
def rolloverAccess (day : ℕ) (st : BudgetState) : BudgetState :=
  if day = st.currentDay then st
  else { st with spentToday := 0, requestCount := 0, cacheHitCount := 0, currentDay := day }

/-- Modelled from the spec: section 4.3, canAfford(estimatedCost) is true
iff spentToday + estimatedCost is at most dailyLimit. -/
def canAfford (estimatedCost : ℕ) (st : BudgetState) : Bool :=
  st.spentToday + estimatedCost ≤ st.dailyLimit

/-- Modelled from the spec: section 4.3, record(actualCost) adds to
spentToday and increments requestCount. -/
def recordCost (actualCost : ℕ) (st : BudgetState) : BudgetState :=
  { st with spentToday := st.spentToday + actualCost, requestCount := st.requestCount + 1 }

/-- Modelled from the spec: section 4.3, recordCacheHit increments
cacheHitCount without affecting spend. -/
def recordCacheHit (st : BudgetState) : BudgetState :=
  { st with cacheHitCount := st.cacheHitCount + 1 }

/-- Modelled from the spec: section 4.3, estimateCost is proportional to
character count in fixed-size 100-character units, rounded up, at a
backend-specific unit price. -/
def estimateCost (text : String) (unitPrice : ℕ) : ℕ :=
  ((text.length + 99) / 100) * unitPrice

/-- A Cost Monitor mutating operation (spec section 4.3). -/
inductive CostOp where
  | record (actualCost : ℕ)
  | cacheHit
  | report
deriving DecidableEq, Repr

/-- One Cost Monitor access at a given local date: rollover first, then the
operation (dailyReport mutates nothing beyond the rollover). -/
def costStep (day : ℕ) (st : BudgetState) (op : CostOp) : BudgetState :=
  let st1 := rolloverAccess day st
  match op with
  | CostOp.record c => recordCost c st1
  | CostOp.cacheHit => recordCacheHit st1
  | CostOp.report => st1

/-- A sequence of Cost Monitor accesses at a fixed local date. -/
def costRun (day : ℕ) (ops : List CostOp) (st : BudgetState) : BudgetState :=
  ops.foldl (costStep day) st

/-- A cached analysis result with its expiry instant (spec section 3
CacheEntry). -/
structure CacheEntry where
  result : AnalysisResult
  expiry : ℕ
deriving DecidableEq, Repr

/-- Modelled from the spec: section 4.2 Cache Store, a key-value store kept
in most-recently-used-first order, bounded by a maximum entry count. -/
structure CacheStore where
  entries : List (String × CacheEntry)
deriving DecidableEq, Repr

/-- Modelled from the spec: section 4.2 get(key): nothing if the key is
absent or now is past the entry expiry; on a hit the entry moves to the
front (most recently used). -/
def cacheGet (now : ℕ) (key : String) (c : CacheStore) : Option AnalysisResult × CacheStore :=
  match c.entries.find? (fun kv => kv.1 == key) with
  | none => (none, c)
  | some kv =>
    if now > kv.2.expiry then (none, c)
    else (some kv.2.result, ⟨kv :: c.entries.filter (fun e => e.1 != key)⟩)

/-- Modelled from the spec: section 4.2 put(key, result, ttl):
insert/overwrite at the front, then evict from the least-recently-used end
down to the configured maximum entry count. -/
def cachePut (maxEntries : ℕ) (key : String) (e : CacheEntry) (c : CacheStore) : CacheStore :=
  ⟨((key, e) :: c.entries.filter (fun kv => kv.1 != key)).take maxEntries⟩

/-- Modelled from the spec: section 4.1, a stable non-cryptographic 64-bit
polynomial hash of the normalized text. -/
def stableHash (s : String) : ℕ :=
  s.data.foldl (fun h c => (h * 131 + c.toNat) % (2 ^ 64)) 7

/-- Requested extras for one analysis (spec section 3 options). -/
structure AnalysisOptions where
  wantEmotions : Bool
  wantKeyPhrases : Bool
deriving DecidableEq, Repr

/-- Modelled from the spec: section 4.1, the cache key is the hash of the
normalized text concatenated with a short fingerprint of the option set. -/
def cacheKey (text : String) (opts : AnalysisOptions) : String :=
  toString (stableHash (normalizeText text)) ++ "|" ++
    (if opts.wantEmotions then "E" else "e") ++
    (if opts.wantKeyPhrases then "K" else "k")

/-- Transient failures a paid backend can raise (spec section 6). -/
inductive BackendError where
  | unavailable
  | rateLimited
  | timeoutErr
deriving DecidableEq, Repr

/-- Raw output of a paid backend before normalization: a backend-specific
sentiment label and a confidence. -/
structure RawBackendResult where
  rawLabel : String
  rawConfidence : ℚ
deriving DecidableEq, Repr

/-- Errors the analyze operation can surface to the caller (spec
section 7). -/
inductive AnalyzeError where
  | EmptyInputError
  | UnmappableSentimentError
deriving DecidableEq, Repr

/-- Modelled from the spec: section 4.4 rule 7 NORMALIZE, the label map from
the documented backend vocabulary to the four canonical values; any label
outside the vocabulary raises UnmappableSentimentError. -/
def normalizeLabel (raw : String) : Except AnalyzeError Sentiment :=
  if raw = "POSITIVE" then Except.ok Sentiment.POSITIVE
  else if raw = "NEGATIVE" then Except.ok Sentiment.NEGATIVE
  else if raw = "NEUTRAL" then Except.ok Sentiment.NEUTRAL
  else if raw = "MIXED" then Except.ok Sentiment.MIXED
  else Except.error AnalyzeError.UnmappableSentimentError

/-- Router configuration (spec section 6): backend enablement, per-backend
unit prices, cache TTL and the cache size bound. -/
structure RouterConfig where
  primaryEnabled : Bool
  secondaryEnabled : Bool
  primaryPrice : ℕ
  secondaryPrice : ℕ
  cacheTtl : ℕ
  maxCacheEntries : ℕ

/-- The router environment: configuration plus the two paid backends as
fallible functions (each models the outcome after the bounded retries of
section 4.4 rule 4). -/
structure RouterEnv where
  cfg : RouterConfig
  primaryBackend : String → Except BackendError RawBackendResult
  secondaryBackend : String → Except BackendError RawBackendResult

/-- The mutable state the router threads: cache store and budget state. -/
structure SysState where
  cache : CacheStore
  budget : BudgetState
deriving DecidableEq, Repr

/-- Observable collaborator interactions of one analyze call. -/
inductive Ev where
  | cacheRead
  | cacheWrite
  | primaryCall
  | secondaryCall
deriving DecidableEq, Repr

/-- Result triple of one analyze call: outcome, updated state, events. -/
abbrev RouterOut := Except AnalyzeError AnalysisResult × SysState × List Ev

/-- Builds the canonical result for a paid backend response (spec
section 3). -/
def mkBackendResult (src : String) (s : Sentiment) (conf : ℚ) (cost now : ℕ) : AnalysisResult :=
  { sentiment := s, confidence := conf, sourceBackend := src,
    costEstimate := cost, processingTimeMs := 0, timestamp := now }

/-- Normalizes a raw backend result into the canonical shape, raising
UnmappableSentimentError on an out-of-vocabulary label (spec section 4.4
rule 7). -/
def normalizeRaw (raw : RawBackendResult) (src : String) (cost now : ℕ) :
    Except AnalyzeError AnalysisResult :=
  match normalizeLabel raw.rawLabel with
  | Except.ok s => Except.ok (mkBackendResult src s raw.rawConfidence cost now)
  | Except.error e => Except.error e

/-- CACHE_WRITE followed by DONE (spec section 4.4 rule 8): store the
normalized result under the request key with the configured TTL and return
it. -/
def cacheWriteReturn (cfg : RouterConfig) (now : ℕ) (key : String) (r : AnalysisResult)
    (cache : CacheStore) (budget : BudgetState) (evs : List Ev) : RouterOut :=
  (Except.ok r,
   ⟨cachePut cfg.maxCacheEntries key ⟨r, now + cfg.cacheTtl⟩ cache, budget⟩,
   evs ++ [Ev.cacheWrite])

/-- LOCAL_FALLBACK (spec section 4.4 rule 6): the rule-based analyzer always
succeeds, at zero cost, and its result is cached like any other. -/
def localFallbackStage (cfg : RouterConfig) (now : ℕ) (key text : String)
    (cache : CacheStore) (budget : BudgetState) (evs : List Ev) : RouterOut :=
  cacheWriteReturn cfg now key { ruleBasedAnalyze text with timestamp := now } cache budget evs

/-- SECONDARY_CALL (spec section 4.4 rule 5): budget-checked independently
at the secondary price; on backend failure or unaffordability fall through
to the local fallback; on success record the cost and normalize. -/
def secondaryStage (env : RouterEnv) (now : ℕ) (key text : String)
    (cache : CacheStore) (budget : BudgetState) (evs : List Ev) : RouterOut :=
  if env.cfg.secondaryEnabled then
    let est := estimateCost text env.cfg.secondaryPrice
    if canAfford est budget then
      match env.secondaryBackend text with
      | Except.ok raw =>
        let budget2 := recordCost est budget
        (match normalizeRaw raw "secondary" est now with
         | Except.ok r => cacheWriteReturn env.cfg now key r cache budget2 (evs ++ [Ev.secondaryCall])
         | Except.error e => (Except.error e, ⟨cache, budget2⟩, evs ++ [Ev.secondaryCall]))
      | Except.error _ => localFallbackStage env.cfg now key text cache budget (evs ++ [Ev.secondaryCall])
    else localFallbackStage env.cfg now key text cache budget evs
  else localFallbackStage env.cfg now key text cache budget evs

/-- BUDGET_CHECK and PRIMARY_CALL (spec section 4.4 rules 3-4): if the
primary estimate is unaffordable skip directly to the local fallback; on
primary failure continue with the secondary stage; on success record the
cost and normalize. -/
def primaryStage (env : RouterEnv) (now : ℕ) (key text : String)
    (cache : CacheStore) (budget : BudgetState) (evs : List Ev) : RouterOut :=
  if env.cfg.primaryEnabled then
    let est := estimateCost text env.cfg.primaryPrice
    if canAfford est budget then
      match env.primaryBackend text with
      | Except.ok raw =>
        let budget2 := recordCost est budget
        (match normalizeRaw raw "primary" est now with
         | Except.ok r => cacheWriteReturn env.cfg now key r cache budget2 (evs ++ [Ev.primaryCall])
         | Except.error e => (Except.error e, ⟨cache, budget2⟩, evs ++ [Ev.primaryCall]))
      | Except.error _ => secondaryStage env now key text cache budget (evs ++ [Ev.primaryCall])
    else localFallbackStage env.cfg now key text cache budget evs
  else secondaryStage env now key text cache budget evs

/-- Modelled from the spec: the section 4.4 Sentiment Router state machine
for one text (the implementation is not under the source tree).  Reject
empty or whitespace-only input with no collaborator interaction; otherwise
check the cache and either return the cached result recording a cache hit,
or run the backend chain starting from the budget-checked primary stage.
The local date is applied to the budget state on every Cost Monitor
access. -/
def analyze (env : RouterEnv) (now day : ℕ) (text : String) (opts : AnalysisOptions)
    (st : SysState) : RouterOut :=
  if normalizeText text = "" then (Except.error AnalyzeError.EmptyInputError, st, [])
  else
    let key := cacheKey text opts
    match cacheGet now key st.cache with
    | (some r, cache2) =>
      (Except.ok r, ⟨cache2, recordCacheHit (rolloverAccess day st.budget)⟩, [Ev.cacheRead])
    | (none, _) =>
      primaryStage env now key text st.cache (rolloverAccess day st.budget) [Ev.cacheRead]

/-- Per-chunk analysis outcome used by long-text aggregation: canonical
label, confidence and the chunk length in characters. -/
structure ChunkResult where
  label : Sentiment
  confidence : ℚ
  chunkLen : ℕ
deriving DecidableEq, Repr

/-- Number of chunks carrying a given label. -/
def voteCount (l : Sentiment) (cs : List ChunkResult) : ℕ :=
  (cs.filter (fun c => c.label == l)).length

/-- Modelled from the spec: section 4.4 rule 2, majority vote over per-chunk
labels; a label wins only with strictly more votes than every other label,
and every tie at the top resolves to NEUTRAL. -/
def aggregateLabel (cs : List ChunkResult) : Sentiment :=
  let p := voteCount Sentiment.POSITIVE cs
  let n := voteCount Sentiment.NEGATIVE cs
  let u := voteCount Sentiment.NEUTRAL cs
  let m := voteCount Sentiment.MIXED cs
  if n < p ∧ u < p ∧ m < p then Sentiment.POSITIVE
  else if p < n ∧ u < n ∧ m < n then Sentiment.NEGATIVE
  else if p < m ∧ n < m ∧ u < m then Sentiment.MIXED
  else Sentiment.NEUTRAL

/-- Modelled from the spec: section 4.4 rule 2, aggregated confidence is the
average of chunk confidences weighted by chunk length. -/
def aggregateConfidence (cs : List ChunkResult) : ℚ :=
  let tot := (cs.map ChunkResult.chunkLen).sum
  if tot = 0 then 0
  else (cs.map (fun c => c.confidence * (c.chunkLen : ℚ))).sum / (tot : ℚ)

/-- A concrete router environment used by witness instances: primary enabled
and succeeding with a POSITIVE label, secondary disabled. -/
def wEnv : RouterEnv :=
  { cfg := { primaryEnabled := true, secondaryEnabled := false, primaryPrice := 1,
             secondaryPrice := 1, cacheTtl := 10, maxCacheEntries := 4 }
    primaryBackend := fun _ => Except.ok ⟨"POSITIVE", 9/10⟩
    secondaryBackend := fun _ => Except.error BackendError.unavailable }

/-- A concrete initial state used by witness instances: empty cache and a
fresh budget. -/
def wSt0 : SysState :=
  { cache := ⟨[]⟩,
    budget := { dailyLimit := 100, spentToday := 0, requestCount := 0,
                cacheHitCount := 0, currentDay := 0 } }

/-- The canonical result the witness environment produces for the witness
text. -/
def wR : AnalysisResult := mkBackendResult "primary" Sentiment.POSITIVE (9/10) 1 5

/-- The state after the first witness analyze call. -/
def wSt1 : SysState := (analyze wEnv 5 0 "great raise" ⟨true, false⟩ wSt0).2.1

/-- A concrete environment whose budget checks fail: same as wEnv but the
witness budget below has a zero daily limit. -/
def wBudgetPoor : BudgetState :=
  { dailyLimit := 0, spentToday := 0, requestCount := 0, cacheHitCount := 0, currentDay := 0 }

/-- A concrete system state whose budget cannot afford any paid call. -/
def wStPoor : SysState := { cache := ⟨[]⟩, budget := wBudgetPoor }

/-- A concrete cached analysis result used by cache witnesses. -/
def wCacheResult : AnalysisResult :=
  { sentiment := Sentiment.NEUTRAL, confidence := 1/2, sourceBackend := "primary",
    costEstimate := 1, processingTimeMs := 0, timestamp := 0 }

/-- A concrete full cache with two entries, key a most recently used. -/
def wCache : CacheStore :=
  ⟨[("a", ⟨wCacheResult, 10⟩), ("b", ⟨wCacheResult, 10⟩)]⟩

/-- A concrete budget used by cost monitor witnesses. -/
def wBudget : BudgetState :=
  { dailyLimit := 10, spentToday := 3, requestCount := 1, cacheHitCount := 2, currentDay := 5 }

theorem rolloverAccess_currentDay (day : ℕ) (st : BudgetState) :
    (rolloverAccess day st).currentDay = day := by
  unfold rolloverAccess
  split <;> simp_all

theorem rolloverAccess_self (day : ℕ) (st : BudgetState) (h : st.currentDay = day) :
    rolloverAccess day st = st := by
  unfold rolloverAccess
  simp [h]

theorem cacheGet_fst_none (now : ℕ) (key : String) (c : CacheStore)
    (h : (cacheGet now key c).1 = none) : cacheGet now key c = (none, c) := by
  unfold cacheGet at h ⊢
  cases hf : c.entries.find? (fun kv => kv.1 == key) with
  | none => simp
  | some kv =>
    rw [hf] at h
    by_cases hexp : now > kv.2.expiry
    · simp [hexp]
    · simp [hexp] at h

theorem cacheGet_some (now : ℕ) (key : String) (c c2 : CacheStore) (r : AnalysisResult)
    (h : cacheGet now key c = (some r, c2)) : (cacheGet now key c2).1 = some r := by
  unfold cacheGet at h
  cases hf : c.entries.find? (fun kv => kv.1 == key) with
  | none => rw [hf] at h; simp at h
  | some kv =>
    rw [hf] at h
    by_cases hexp : now > kv.2.expiry
    · simp [hexp] at h
    · simp [hexp] at h
      obtain ⟨hr, hc⟩ := h
      have hk := List.find?_some hf
      unfold cacheGet
      rw [← hc]
      have hfind : List.find? (fun kv => kv.1 == key)
          (kv :: List.filter (fun e => e.1 != key) c.entries) = some kv :=
        List.find?_cons_of_pos _ hk
      rw [hfind]
      simp [hexp, hr]

theorem cacheGet_put_self (maxE now ttl : ℕ) (key : String) (r : AnalysisResult)
    (c : CacheStore) (hmax : 1 ≤ maxE) :
    (cacheGet now key (cachePut maxE key ⟨r, now + ttl⟩ c)).1 = some r := by
  cases maxE with
  | zero => omega
  | succ k =>
    unfold cachePut cacheGet
    have hk : ((fun kv : String × CacheEntry => kv.1 == key) (key, ⟨r, now + ttl⟩)) = true := by
      simp
    have hexp : ¬ now > now + ttl := by omega
    simp [List.take_succ_cons, List.find?_cons_of_pos _ hk, hexp]

theorem secondaryStage_ok (env : RouterEnv) (now : ℕ) (key text : String)
    (cache : CacheStore) (budget : BudgetState) (evs : List Ev)
    (r : AnalysisResult) (st1 : SysState) (tr : List Ev)
    (h : secondaryStage env now key text cache budget evs = (Except.ok r, st1, tr)) :
    st1.cache = cachePut env.cfg.maxCacheEntries key ⟨r, now + env.cfg.cacheTtl⟩ cache ∧
    st1.budget.currentDay = budget.currentDay := by
  simp only [secondaryStage] at h
  split at h
  · split at h
    · split at h
      · split at h
        · simp only [cacheWriteReturn, Prod.mk.injEq, Except.ok.injEq] at h
          obtain ⟨h1, h2, h3⟩ := h
          subst h1; subst h2
          simp [recordCost]
        · simp at h
      · simp only [localFallbackStage, cacheWriteReturn, Prod.mk.injEq, Except.ok.injEq] at h
        obtain ⟨h1, h2, h3⟩ := h
        subst h1; subst h2
        simp
    · simp only [localFallbackStage, cacheWriteReturn, Prod.mk.injEq, Except.ok.injEq] at h
      obtain ⟨h1, h2, h3⟩ := h
      subst h1; subst h2
      simp
  · simp only [localFallbackStage, cacheWriteReturn, Prod.mk.injEq, Except.ok.injEq] at h
    obtain ⟨h1, h2, h3⟩ := h
    subst h1; subst h2
    simp

theorem primaryStage_ok (env : RouterEnv) (now : ℕ) (key text : String)
    (cache : CacheStore) (budget : BudgetState) (evs : List Ev)
    (r : AnalysisResult) (st1 : SysState) (tr : List Ev)
    (h : primaryStage env now key text cache budget evs = (Except.ok r, st1, tr)) :
    st1.cache = cachePut env.cfg.maxCacheEntries key ⟨r, now + env.cfg.cacheTtl⟩ cache ∧
    st1.budget.currentDay = budget.currentDay := by
  simp only [primaryStage] at h
  split at h
  · split at h
    · split at h
      · split at h
        · simp only [cacheWriteReturn, Prod.mk.injEq, Except.ok.injEq] at h
          obtain ⟨h1, h2, h3⟩ := h
          subst h1; subst h2
          simp [recordCost]
        · simp at h
      · exact secondaryStage_ok env now key text cache budget _ r st1 tr h
    · simp only [localFallbackStage, cacheWriteReturn, Prod.mk.injEq, Except.ok.injEq] at h
      obtain ⟨h1, h2, h3⟩ := h
      subst h1; subst h2
      simp
  · exact secondaryStage_ok env now key text cache budget _ r st1 tr h

theorem analyze_ok_inv (env : RouterEnv) (now day : ℕ) (text : String)
    (opts : AnalysisOptions) (st : SysState) (r : AnalysisResult) (st1 : SysState)
    (tr : List Ev) (hmax : 1 ≤ env.cfg.maxCacheEntries)
    (h : analyze env now day text opts st = (Except.ok r, st1, tr)) :
    (cacheGet now (cacheKey text opts) st1.cache).1 = some r ∧
    st1.budget.currentDay = day := by
  simp only [analyze] at h
  split at h
  · simp at h
  · split at h
    case _ rc cache2 heq =>
      simp only [Prod.mk.injEq, Except.ok.injEq] at h
      obtain ⟨h1, h2, h3⟩ := h
      subst h1; subst h2
      constructor
      · exact cacheGet_some _ _ _ _ _ heq
      · simp [recordCacheHit, rolloverAccess_currentDay]
    case _ cache2 heq =>
      obtain ⟨hc, hb⟩ := primaryStage_ok env now (cacheKey text opts) text st.cache
        (rolloverAccess day st.budget) [Ev.cacheRead] r st1 tr h
      constructor
      · rw [hc]
        exact cacheGet_put_self env.cfg.maxCacheEntries now env.cfg.cacheTtl
          (cacheKey text opts) r st.cache hmax
      · rw [hb]
        exact rolloverAccess_currentDay day st.budget

theorem costStep_currentDay (day : ℕ) (st : BudgetState) (op : CostOp) :
    (costStep day st op).currentDay = day := by
  cases op <;> simp [costStep, recordCost, recordCacheHit, rolloverAccess_currentDay]

theorem costStep_spent_mono (day : ℕ) (st : BudgetState) (op : CostOp)
    (h : st.currentDay = day) : st.spentToday ≤ (costStep day st op).spentToday := by
  cases op <;>
    simp [costStep, recordCost, recordCacheHit, rolloverAccess_self day st h]

theorem costRun_spent_mono (day : ℕ) (ops : List CostOp) (st : BudgetState)
    (h : st.currentDay = day) : st.spentToday ≤ (costRun day ops st).spentToday := by
  induction ops generalizing st with
  | nil => simp [costRun]
  | cons op rest ih =>
    have h1 := costStep_spent_mono day st op h
    have h2 := ih (costStep day st op) (costStep_currentDay day st op)
    calc st.spentToday ≤ (costStep day st op).spentToday := h1
      _ ≤ (costRun day rest (costStep day st op)).spentToday := h2
      _ = (costRun day (op :: rest) st).spentToday := by simp [costRun]

/-- C1: if both configured paid backends fail, analyze_with_fallback still
returns the result of the always-succeeding local rule-based analyzer, a
valid AnalysisResult whose sourceBackend is "local-fallback" and whose
costEstimate is 0, so no backend failure is surfaced to the caller. -/
theorem c1_fallback_guarantee
    (comprehendAnalyzer bedrockAnalyzer : String → Except AWSServiceError AnalysisResult)
    (text : String) (e1 e2 : AWSServiceError)
    (h1 : comprehendAnalyzer text = Except.error e1)
    (h2 : bedrockAnalyzer text = Except.error e2) :
    analyze_with_fallback comprehendAnalyzer bedrockAnalyzer text = ruleBasedAnalyze text ∧
    (analyze_with_fallback comprehendAnalyzer bedrockAnalyzer text).sourceBackend =
      "local-fallback" ∧
    (analyze_with_fallback comprehendAnalyzer bedrockAnalyzer text).costEstimate = 0 := by
  have hres : analyze_with_fallback comprehendAnalyzer bedrockAnalyzer text =
      ruleBasedAnalyze text := by
    unfold analyze_with_fallback
    rw [h1, h2]
  exact ⟨hres, by rw [hres]; rfl, by rw [hres]; rfl⟩

/-- Witness for C1 at concrete always-failing backends and a concrete
text. -/
theorem c1_fallback_guarantee_witness :
    analyze_with_fallback (fun _ => Except.error AWSServiceError.serviceUnavailable)
      (fun _ => Except.error AWSServiceError.timeoutErr) "pay is bad" =
      ruleBasedAnalyze "pay is bad" ∧
    (analyze_with_fallback (fun _ => Except.error AWSServiceError.serviceUnavailable)
      (fun _ => Except.error AWSServiceError.timeoutErr) "pay is bad").sourceBackend =
      "local-fallback" ∧
    (analyze_with_fallback (fun _ => Except.error AWSServiceError.serviceUnavailable)
      (fun _ => Except.error AWSServiceError.timeoutErr) "pay is bad").costEstimate = 0 :=
  c1_fallback_guarantee _ _ "pay is bad" AWSServiceError.serviceUnavailable
    AWSServiceError.timeoutErr rfl rfl

/-- C2 counterexample: the dashboard categorization embedded from
processAnalysisData does not reject out-of-vocabulary labels: a post
labelled FURIOUS is silently dropped from every sentiment bucket with no
error, refuting label closure, and a missing label is silently coerced to
the neutral key rather than rejected. -/
theorem c2_label_closure_counterexample :
    ¬ processAnalysisLabelClosure ∧ sentimentKey unlabeledPost = "neutral" := by
  constructor
  · intro h
    exact absurd (h [furiousPost] furiousPost (by simp)) (by decide)
  · decide

/-- C2 amended: in processAnalysisData a missing sentiment label is silently
coerced to the neutral key; a post whose lower-cased label is one of the
four bucket names is appended to exactly that bucket; and a post with any
other label is silently omitted from every bucket, with no error raised. -/
theorem c2_label_closure_amended (p : RPost) :
    (p.aws_sentiment.bind AwsSentimentData.sentiment = none → sentimentKey p = "neutral") ∧
    (sentimentKey p = "positive" → postsBySentiment [p] = { emptyBuckets with positive := [p] }) ∧
    (sentimentKey p = "negative" → postsBySentiment [p] = { emptyBuckets with negative := [p] }) ∧
    (sentimentKey p = "neutral" → postsBySentiment [p] = { emptyBuckets with neutral := [p] }) ∧
    (sentimentKey p = "mixed" → postsBySentiment [p] = { emptyBuckets with mixed := [p] }) ∧
    (sentimentKey p ∉ (["positive", "negative", "neutral", "mixed"] : List String) →
      postsBySentiment [p] = emptyBuckets) := by
  refine ⟨?_, ?_, ?_, ?_, ?_, ?_⟩
  · intro h
    simp [sentimentKey, h]
  · intro h
    simp [postsBySentiment, bucketAdd, emptyBuckets, h]
  · intro h
    simp [postsBySentiment, bucketAdd, emptyBuckets, h]
  · intro h
    simp [postsBySentiment, bucketAdd, emptyBuckets, h]
  · intro h
    simp [postsBySentiment, bucketAdd, emptyBuckets, h]
  · intro h
    simp only [List.mem_cons, List.mem_singleton, not_or] at h
    obtain ⟨h1, h2, h3, h4, _⟩ := h
    simp [postsBySentiment, bucketAdd, h1, h2, h3, h4]

/-- Witness for the amended C2 behavior at the two concrete posts. -/
theorem c2_label_closure_amended_witness :
    sentimentKey unlabeledPost = "neutral" ∧
    postsBySentiment [furiousPost] = emptyBuckets :=
  ⟨(c2_label_closure_amended unlabeledPost).1 rfl,
   (c2_label_closure_amended furiousPost).2.2.2.2.2 (by decide)⟩

/-- C4: across any sequence of Cost Monitor operations at a fixed local
date equal to the current day of the state, spentToday is non-decreasing; and on
the first access after the local date changes, spentToday, requestCount and
cacheHitCount all reset to exactly zero while dailyLimit is unchanged. -/
theorem c4_budget_monotone_rollover (day : ℕ) (st : BudgetState) (ops : List CostOp) :
    (st.currentDay = day → st.spentToday ≤ (costRun day ops st).spentToday) ∧
    (st.currentDay ≠ day →
      (rolloverAccess day st).spentToday = 0 ∧
      (rolloverAccess day st).requestCount = 0 ∧
      (rolloverAccess day st).cacheHitCount = 0 ∧
      (rolloverAccess day st).dailyLimit = st.dailyLimit) := by
  constructor
  · intro h
    exact costRun_spent_mono day ops st h
  · intro h
    unfold rolloverAccess
    rw [if_neg (fun he => h he.symm)]
    exact ⟨rfl, rfl, rfl, rfl⟩

/-- Witness for C4: a same-day run of three operations, and a rollover. -/
theorem c4_budget_monotone_rollover_witness :
    wBudget.spentToday ≤
      (costRun 5 [CostOp.record 2, CostOp.cacheHit, CostOp.report] wBudget).spentToday ∧
    ((rolloverAccess 6 wBudget).spentToday = 0 ∧
      (rolloverAccess 6 wBudget).requestCount = 0 ∧
      (rolloverAccess 6 wBudget).cacheHitCount = 0 ∧
      (rolloverAccess 6 wBudget).dailyLimit = wBudget.dailyLimit) :=
  ⟨(c4_budget_monotone_rollover 5 wBudget
      [CostOp.record 2, CostOp.cacheHit, CostOp.report]).1 rfl,
   (c4_budget_monotone_rollover 6 wBudget []).2 (by decide)⟩

/-- C3: after a successful analyze of text T with options O, an immediately
repeated call returns the identical AnalysisResult (every field equal, in
particular all but processingTimeMs), performs no re-analysis (its only
collaborator event is the cache read, with no backend call), adds zero cost
to spentToday, and increments the cache-hit counter by exactly one.
Requires the configured cache bound to allow at least one entry. -/
theorem c3_idempotent_caching (env : RouterEnv) (now day : ℕ) (text : String)
    (opts : AnalysisOptions) (st st1 : SysState) (r : AnalysisResult) (tr1 : List Ev)
    (hmax : 1 ≤ env.cfg.maxCacheEntries)
    (h1 : analyze env now day text opts st = (Except.ok r, st1, tr1)) :
    ∃ c3 : CacheStore,
      analyze env now day text opts st1 =
        (Except.ok r, ⟨c3, recordCacheHit st1.budget⟩, [Ev.cacheRead]) ∧
      (recordCacheHit st1.budget).spentToday = st1.budget.spentToday ∧
      (recordCacheHit st1.budget).cacheHitCount = st1.budget.cacheHitCount + 1 := by
  obtain ⟨hget, hday⟩ := analyze_ok_inv env now day text opts st r st1 tr1 hmax h1
  have hne : ¬ normalizeText text = "" := by
    intro he
    unfold analyze at h1
    rw [if_pos he] at h1
    exact absurd h1 (by simp)
  obtain ⟨c3, hc3⟩ : ∃ c3, cacheGet now (cacheKey text opts) st1.cache = (some r, c3) := by
    cases hgg : cacheGet now (cacheKey text opts) st1.cache with
    | mk o cc =>
      rw [hgg] at hget
      simp only at hget
      subst hget
      exact ⟨cc, rfl⟩
  refine ⟨c3, ?_, by simp [recordCacheHit], by simp [recordCacheHit]⟩
  unfold analyze
  rw [if_neg hne]
  simp only
  rw [hc3, rolloverAccess_self day st1.budget hday]

/-- Witness for C3: a first call through the primary backend, then the
repeated call served from the cache. -/
theorem c3_idempotent_caching_witness :
    ∃ c3 : CacheStore,
      analyze wEnv 5 0 "great raise" ⟨true, false⟩ wSt1 =
        (Except.ok wR, ⟨c3, recordCacheHit wSt1.budget⟩, [Ev.cacheRead]) ∧
      (recordCacheHit wSt1.budget).spentToday = wSt1.budget.spentToday ∧
      (recordCacheHit wSt1.budget).cacheHitCount = wSt1.budget.cacheHitCount + 1 :=
  c3_idempotent_caching wEnv 5 0 "great raise" ⟨true, false⟩ wSt0 wSt1 wR
    [Ev.cacheRead, Ev.primaryCall, Ev.cacheWrite] (by decide) rfl

/-- C5: canAfford(estimatedCost) is true exactly when spentToday plus the
estimate stays within dailyLimit; and on a cache miss with an enabled
primary backend whose estimate is unaffordable, analyze raises no error and
routes the request to the local fallback analyzer, returning its result
with sourceBackend "local-fallback" and costEstimate 0, leaving the budget
state unchanged apart from the rollover access. -/
theorem c5_canafford_routing (cEst : ℕ) (b : BudgetState) (env : RouterEnv)
    (now day : ℕ) (text : String) (opts : AnalysisOptions) (st : SysState)
    (hne : normalizeText text ≠ "")
    (hmiss : (cacheGet now (cacheKey text opts) st.cache).1 = none)
    (hpe : env.cfg.primaryEnabled = true)
    (hnb : canAfford (estimateCost text env.cfg.primaryPrice) (rolloverAccess day st.budget) = false) :
    (canAfford cEst b = true ↔ b.spentToday + cEst ≤ b.dailyLimit) ∧
    analyze env now day text opts st =
      (Except.ok { ruleBasedAnalyze text with timestamp := now },
       ⟨cachePut env.cfg.maxCacheEntries (cacheKey text opts)
          ⟨{ ruleBasedAnalyze text with timestamp := now }, now + env.cfg.cacheTtl⟩ st.cache,
        rolloverAccess day st.budget⟩,
       [Ev.cacheRead, Ev.cacheWrite]) ∧
    ({ ruleBasedAnalyze text with timestamp := now } : AnalysisResult).sourceBackend =
      "local-fallback" ∧
    ({ ruleBasedAnalyze text with timestamp := now } : AnalysisResult).costEstimate = 0 := by
  refine ⟨by simp [canAfford], ?_, rfl, rfl⟩
  unfold analyze
  rw [if_neg hne]
  simp only
  rw [cacheGet_fst_none now (cacheKey text opts) st.cache hmiss]
  simp only [primaryStage, hpe, if_true, hnb]
  simp [localFallbackStage, cacheWriteReturn]

/-- Witness for C5: a zero daily limit forces the budget check to fail and
the request is answered by the local fallback analyzer. -/
theorem c5_canafford_routing_witness :
    (canAfford 2 wBudget = true ↔ wBudget.spentToday + 2 ≤ wBudget.dailyLimit) ∧
    ({ ruleBasedAnalyze "bad stuff" with timestamp := 7 } : AnalysisResult).sourceBackend =
      "local-fallback" ∧
    ({ ruleBasedAnalyze "bad stuff" with timestamp := 7 } : AnalysisResult).costEstimate = 0 :=
  have h := c5_canafford_routing 2 wBudget wEnv 7 0 "bad stuff" ⟨false, false⟩ wStPoor
    (by decide) (by decide) (by decide) (by decide)
  ⟨h.1, h.2.2.1, h.2.2.2⟩

/-- C7: for every input whose normalized form is empty, which is exactly
the empty and whitespace-only inputs, analyze raises EmptyInputError
immediately, leaving the cache and budget state untouched and performing no
backend call and no cache read or write; in particular the empty string and
a blank string normalize to empty. -/
theorem c7_empty_input (env : RouterEnv) (now day : ℕ) (opts : AnalysisOptions)
    (st : SysState) (text : String) (h : normalizeText text = "") :
    analyze env now day text opts st = (Except.error AnalyzeError.EmptyInputError, st, []) ∧
    normalizeText "" = "" ∧ normalizeText "   " = "" := by
  refine ⟨?_, by decide, by decide⟩
  unfold analyze
  rw [if_pos h]

/-- Witness for C7 at the whitespace-only input. -/
theorem c7_empty_input_witness :
    analyze wEnv 0 0 "   " ⟨false, false⟩ wSt0 =
      (Except.error AnalyzeError.EmptyInputError, wSt0, []) ∧
    normalizeText "" = "" ∧ normalizeText "   " = "" :=
  c7_empty_input wEnv 0 0 ⟨false, false⟩ wSt0 "   " (by decide)

/-- C6: chunk aggregation is majority vote with ties broken toward NEUTRAL:
a label with strictly more votes than every other label is the aggregate; if
two distinct labels tie for the maximum vote count the aggregate is NEUTRAL;
the aggregated confidence is the chunk-length-weighted average of chunk
confidences; and in particular three equal-length chunks labelled POSITIVE,
POSITIVE, NEGATIVE aggregate to POSITIVE while two equal-length chunks
labelled POSITIVE, NEGATIVE aggregate to NEUTRAL. -/
theorem c6_chunk_aggregation :
    (∀ (cs : List ChunkResult) (l : Sentiment),
        (∀ l2 : Sentiment, l2 ≠ l → voteCount l2 cs < voteCount l cs) →
        aggregateLabel cs = l) ∧
    (∀ (cs : List ChunkResult) (l1 l2 : Sentiment), l1 ≠ l2 →
        voteCount l1 cs = voteCount l2 cs →
        (∀ l3 : Sentiment, voteCount l3 cs ≤ voteCount l1 cs) →
        aggregateLabel cs = Sentiment.NEUTRAL) ∧
    (∀ cs : List ChunkResult, (cs.map ChunkResult.chunkLen).sum ≠ 0 →
        aggregateConfidence cs =
          (cs.map (fun c => c.confidence * (c.chunkLen : ℚ))).sum /
            (((cs.map ChunkResult.chunkLen).sum : ℕ) : ℚ)) ∧
    aggregateLabel [⟨Sentiment.POSITIVE, 9/10, 50⟩, ⟨Sentiment.POSITIVE, 8/10, 50⟩,
      ⟨Sentiment.NEGATIVE, 7/10, 50⟩] = Sentiment.POSITIVE ∧
    aggregateLabel [⟨Sentiment.POSITIVE, 9/10, 50⟩, ⟨Sentiment.NEGATIVE, 7/10, 50⟩] =
      Sentiment.NEUTRAL ∧
    aggregateConfidence [⟨Sentiment.POSITIVE, 1, 50⟩, ⟨Sentiment.NEGATIVE, 1/2, 50⟩] = 3/4 := by
  refine ⟨?_, ?_, ?_, by decide, by decide, by norm_num [aggregateConfidence]⟩
  · intro cs l hl
    simp only [aggregateLabel]
    rcases l with _ | _ | _ | _
    · have h1 := hl Sentiment.NEGATIVE (by simp)
      have h2 := hl Sentiment.NEUTRAL (by simp)
      have h3 := hl Sentiment.MIXED (by simp)
      rw [if_pos ⟨h1, h2, h3⟩]
    · have h1 := hl Sentiment.POSITIVE (by simp)
      have h2 := hl Sentiment.NEUTRAL (by simp)
      have h3 := hl Sentiment.MIXED (by simp)
      rw [if_neg (by omega), if_pos ⟨h1, h2, h3⟩]
    · have h1 := hl Sentiment.POSITIVE (by simp)
      have h2 := hl Sentiment.NEGATIVE (by simp)
      have h3 := hl Sentiment.MIXED (by simp)
      rw [if_neg (by omega), if_neg (by omega), if_neg (by omega)]
    · have h1 := hl Sentiment.POSITIVE (by simp)
      have h2 := hl Sentiment.NEGATIVE (by simp)
      have h3 := hl Sentiment.NEUTRAL (by simp)
      rw [if_neg (by omega), if_neg (by omega), if_pos ⟨h1, h2, h3⟩]
  · intro cs l1 l2 hne heq hmax
    have hP := hmax Sentiment.POSITIVE
    have hN := hmax Sentiment.NEGATIVE
    have hU := hmax Sentiment.NEUTRAL
    have hM := hmax Sentiment.MIXED
    simp only [aggregateLabel]
    rcases l1 <;> rcases l2 <;>
      first
        | exact absurd rfl hne
        | rw [if_neg (by omega), if_neg (by omega), if_neg (by omega)]
  · intro cs h
    simp [aggregateConfidence, h]

/-- Witness for C6: a strict NEGATIVE majority, a concrete tie, and a
concrete weighted-average computation. -/
theorem c6_chunk_aggregation_witness :
    aggregateLabel [⟨Sentiment.NEGATIVE, 1, 10⟩, ⟨Sentiment.NEGATIVE, 1, 10⟩,
      ⟨Sentiment.POSITIVE, 1, 10⟩] = Sentiment.NEGATIVE ∧
    aggregateConfidence [⟨Sentiment.POSITIVE, 1, 30⟩, ⟨Sentiment.NEUTRAL, 1/2, 10⟩] =
      (([⟨Sentiment.POSITIVE, 1, 30⟩, ⟨Sentiment.NEUTRAL, 1/2, 10⟩] :
          List ChunkResult).map (fun c => c.confidence * (c.chunkLen : ℚ))).sum /
        ((([⟨Sentiment.POSITIVE, 1, 30⟩, ⟨Sentiment.NEUTRAL, 1/2, 10⟩] :
          List ChunkResult).map ChunkResult.chunkLen).sum : ℕ) :=
  ⟨c6_chunk_aggregation.1 _ Sentiment.NEGATIVE (by decide),
   c6_chunk_aggregation.2.2.1 _ (by decide)⟩

/-- C8: inserting one additional distinct key into a cache holding exactly
maxCacheEntries entries evicts exactly one entry, the least-recently-used
one at the end of the recency list, so the new entry list is the new pair
followed by all previous entries except the last; a subsequent get for the
evicted key misses; and get also misses on any entry whose ttl has
passed. -/
theorem c8_lru_eviction (maxE : ℕ) (c : CacheStore) (key : String) (e : CacheEntry)
    (now : ℕ) (hne : c.entries ≠ [])
    (hlen : c.entries.length = maxE)
    (hfresh : ∀ p ∈ c.entries, p.1 ≠ key)
    (hnodup : (c.entries.map Prod.fst).Nodup) :
    (cachePut maxE key e c).entries = (key, e) :: c.entries.dropLast ∧
    (cacheGet now ((c.entries.getLast hne).1) (cachePut maxE key e c)).1 = none ∧
    (∀ (c2 : CacheStore) (k2 : String) (kv : String × CacheEntry) (now2 : ℕ),
      c2.entries.find? (fun q => q.1 == k2) = some kv → now2 > kv.2.expiry →
      (cacheGet now2 k2 c2).1 = none) := by
  have hfil : c.entries.filter (fun kv => kv.1 != key) = c.entries :=
    List.filter_eq_self.mpr (fun p hp => by simpa [bne_iff_ne] using hfresh p hp)
  have hput : (cachePut maxE key e c).entries = (key, e) :: c.entries.dropLast := by
    show ((key, e) :: c.entries.filter (fun kv => kv.1 != key)).take maxE =
      (key, e) :: c.entries.dropLast
    rw [hfil]
    cases maxE with
    | zero => exact absurd (List.length_eq_zero.mp hlen) hne
    | succ k =>
      rw [List.take_succ_cons]
      congr 1
      rw [List.dropLast_eq_take]
      congr 1
      omega
  have hlastmem : c.entries.getLast hne ∈ c.entries := List.getLast_mem hne
  have hlk : (c.entries.getLast hne).1 ≠ key := hfresh _ hlastmem
  have hsplit := List.dropLast_append_getLast hne
  have hnd2 : ((c.entries.dropLast ++ [c.entries.getLast hne]).map Prod.fst).Nodup := by
    rw [hsplit]
    exact hnodup
  have htail : ∀ q ∈ c.entries.dropLast, q.1 ≠ (c.entries.getLast hne).1 := by
    intro q hq hqe
    rw [List.map_append] at hnd2
    have hdisj := (List.nodup_append.mp hnd2).2.2
    exact hdisj (List.mem_map_of_mem Prod.fst hq) (by simp [hqe])
  have hnone : ((key, e) :: c.entries.dropLast).find?
      (fun q => q.1 == (c.entries.getLast hne).1) = none := by
    rw [List.find?_eq_none]
    intro q hq
    rcases List.mem_cons.mp hq with h1 | h2
    · subst h1
      simp only [beq_iff_eq]
      exact fun hh => hlk hh.symm
    · simp only [beq_iff_eq]
      exact htail q h2
  refine ⟨hput, ?_, ?_⟩
  · unfold cacheGet
    rw [hput, hnone]
  · intro c2 k2 kv now2 hf hexp
    unfold cacheGet
    rw [hf]
    simp [hexp]

/-- Witness for C8 on a concrete two-entry full cache. -/
theorem c8_lru_eviction_witness :
    (cachePut 2 "c" ⟨wCacheResult, 20⟩ wCache).entries =
      ("c", (⟨wCacheResult, 20⟩ : CacheEntry)) :: wCache.entries.dropLast ∧
    (cacheGet 0 ((wCache.entries.getLast (by decide)).1)
      (cachePut 2 "c" ⟨wCacheResult, 20⟩ wCache)).1 = none :=
  ⟨(c8_lru_eviction 2 wCache "c" ⟨wCacheResult, 20⟩ 0 (by decide) (by decide)
      (by decide) (by decide)).1,
   (c8_lru_eviction 2 wCache "c" ⟨wCacheResult, 20⟩ 0 (by decide) (by decide)
      (by decide) (by decide)).2.1⟩

/-- C9: the GET /api/analysis handler of the port-3002 server responds with
status 200 and success true for every filesystem state; it serves the
parsed file contents when analysis_results.json exists and parses, and the
hardcoded demo dataset otherwise; a read or parse error is logged and never
produces an error response. -/
theorem c9_get_analysis_always_succeeds (fs : AnalysisFileState) :
    (getAnalysisHandler fs).response.status = 200 ∧
    (getAnalysisHandler fs).response.success = true ∧
    (getAnalysisHandler fs).response.payload =
      (match fs with
       | AnalysisFileState.readable d => d
       | _ => demoAnalysisData) ∧
    (getAnalysisHandler fs).loggedReadError =
      (match fs with
       | AnalysisFileState.unreadable => true
       | _ => false) := by
  cases fs <;> simp [getAnalysisHandler]

/-- C10: the POST /api/refresh handler of the compensation-dashboard API
responds first, before any subprocess runs, with success true and status
processing; this is its only response regardless of the subprocess
outcomes, and collection or analysis failures appear only as console log
events, never in the response the client observes. -/
theorem c10_refresh_responds_before_subprocesses
    (collectResult analyzeResult : SubprocResult) :
    (refreshEvents collectResult analyzeResult).head? =
      some (REvent.respond true "processing") ∧
    (refreshEvents collectResult analyzeResult).filter isRespond =
      [REvent.respond true "processing"] ∧
    ((REvent.logCollectError ∈ refreshEvents collectResult analyzeResult) ↔
      collectResult = SubprocResult.fail) ∧
    ((REvent.logAnalyzeError ∈ refreshEvents collectResult analyzeResult) ↔
      (collectResult = SubprocResult.ok ∧ analyzeResult = SubprocResult.fail)) := by
  cases collectResult <;> cases analyzeResult <;> decide
